import Mathlib

/-!
Shallow embedding of the ImageZebra API example client
(`iz_client.py`, `main.py`, `targets_example.py`, `analysis_example.py`).

HTTP traffic is modelled by the responses the remote service hands back:
a `HttpResponse` carries the status code and the result of `response.json()`
(`none` when the body is absent or not valid JSON, which Python treats
identically: `json()` raises `JSONDecodeError` in both cases).
Python `dict` values are modelled as association lists in insertion order,
matching CPython semantics: assigning to an existing key keeps its position
and updates the value, assigning a fresh key appends.
-/

namespace ImageZebra

/-- Decoded JSON values, the result type of `response.json()`. -/
inductive Json where
  | null
  | bool (b : Bool)
  | num (n : Int)
  | str (s : String)
  | arr (elems : List Json)
  | obj (fields : List (String × Json))

mutual

/-- Structural equality of decoded JSON values, the model of Python `==`
on them (note one divergence, immaterial to every claim: Python treats
`1 == True` as true, this model does not). -/
def Json.beq (a b : Json) : Bool :=
  match a, b with
  | .null, .null => true
  | .bool x, .bool y => x == y
  | .num x, .num y => x == y
  | .str x, .str y => x == y
  | .arr xs, .arr ys => Json.beqList xs ys
  | .obj xs, .obj ys => Json.beqObj xs ys
  | _, _ => false
termination_by structural a

/-- Elementwise equality of JSON arrays. -/
def Json.beqList (as bs : List Json) : Bool :=
  match as, bs with
  | [], [] => true
  | x :: xs, y :: ys => Json.beq x y && Json.beqList xs ys
  | _, _ => false
termination_by structural as

/-- Pairwise equality of JSON object field lists. -/
def Json.beqObj (as bs : List (String × Json)) : Bool :=
  match as, bs with
  | [], [] => true
  | (k, v) :: xs, (l, w) :: ys => k == l && Json.beq v w && Json.beqObj xs ys
  | _, _ => false
termination_by structural as

end

mutual

theorem Json.beq_eq_true_iff : ∀ (a b : Json), Json.beq a b = true ↔ a = b
  | .null, b => by cases b <;> simp [Json.beq]
  | .bool x, b => by cases b <;> simp [Json.beq]
  | .num x, b => by cases b <;> simp [Json.beq]
  | .str x, b => by cases b <;> simp [Json.beq]
  | .arr xs, b => by
    cases b <;> simp [Json.beq, Json.beqList_eq_true_iff xs]
  | .obj xs, b => by
    cases b <;> simp [Json.beq, Json.beqObj_eq_true_iff xs]
termination_by structural a => a

theorem Json.beqList_eq_true_iff :
    ∀ (as bs : List Json), Json.beqList as bs = true ↔ as = bs
  | [], bs => by cases bs <;> simp [Json.beqList]
  | a :: as, bs => by
    cases bs with
    | nil => simp [Json.beqList]
    | cons y ys =>
      simp [Json.beqList, Json.beq_eq_true_iff a y,
        Json.beqList_eq_true_iff as ys]
termination_by structural as => as

theorem Json.beqObj_eq_true_iff :
    ∀ (as bs : List (String × Json)), Json.beqObj as bs = true ↔ as = bs
  | [], bs => by cases bs <;> simp [Json.beqObj]
  | (k, v) :: as, bs => by
    cases bs with
    | nil => simp [Json.beqObj]
    | cons q ys =>
      obtain ⟨l, w⟩ := q
      simp [Json.beqObj, Json.beq_eq_true_iff v w,
        Json.beqObj_eq_true_iff as ys, and_assoc]
termination_by structural as => as

end

instance : DecidableEq Json := fun a b =>
  decidable_of_iff (Json.beq a b = true) (Json.beq_eq_true_iff a b)

instance {ε α : Type} [DecidableEq ε] [DecidableEq α] :
    DecidableEq (Except ε α) := fun a b =>
  match a, b with
  | .ok x, .ok y =>
    if h : x = y then .isTrue (by rw [h]) else .isFalse (by simp [h])
  | .error x, .error y =>
    if h : x = y then .isTrue (by rw [h]) else .isFalse (by simp [h])
  | .ok _, .error _ => .isFalse (by simp)
  | .error _, .ok _ => .isFalse (by simp)

/-- Python exceptions that the example code can raise or propagate. -/
inductive PyExc where
  /-- `requests.exceptions.HTTPError` raised by `raise_for_status` inside
  `_request`, after the decoded body (or `{}`) was attached to it as
  `response_content`. -/
  | httpError (response_content : Json)
  /-- `requests.exceptions.HTTPError` raised by a bare `raise_for_status`
  with no `response_content` attached (`__init__`, the storage upload). -/
  | rawHttpError
  /-- `requests.exceptions.JSONDecodeError` from `response.json()` on an
  absent or malformed body. -/
  | jsonDecodeError
  /-- `KeyError` from subscripting a dict with a missing key. -/
  | keyError
  /-- `TypeError` from subscripting or iterating a non-subscriptable or
  non-iterable value. -/
  | typeError
  /-- `AttributeError` from calling `.get` on a value that is not a dict. -/
  | attributeError
  deriving DecidableEq

/-- An HTTP response as the client observes it: the status code and the
result of decoding the body as JSON (`none` when there is no body or the
body is not valid JSON). -/
structure HttpResponse where
  status : Nat
  body : Option Json
  deriving DecidableEq

/-- `requests.Response.raise_for_status` raises exactly for 4xx and 5xx. -/
def isErrorStatus (status : Nat) : Bool :=
  400 ≤ status && status < 600

/-- First-match association-list lookup. -/
def alookup {α β : Type} [DecidableEq α] (k : α) : List (α × β) → Option β
  | [] => none
  | p :: rest => if p.1 = k then some p.2 else alookup k rest

/-- Python `d[k] = v` on an insertion-ordered dict: an existing key keeps
its position and gets the new value, a fresh key is appended. -/
def insertItem {α β : Type} [DecidableEq α] (d : List (α × β)) (k : α) (v : β) :
    List (α × β) :=
  if d.any (fun p => decide (p.1 = k)) then
    d.map (fun p => if p.1 = k then (k, v) else p)
  else d ++ [(k, v)]

/-- The dict built by inserting the given pairs left to right into an empty
dict: the semantics of a dict display or comprehension over those pairs. -/
def dictOfPairs {α β : Type} [DecidableEq α] (pairs : List (α × β)) :
    List (α × β) :=
  pairs.foldl (fun d p => insertItem d p.1 p.2) []

/-- Python `{**a, **b}`: all pairs of `a` then all pairs of `b` inserted
into a fresh dict, so a key of `b` overwrites the value from `a`. -/
def mergeHeaders (auth caller : List (String × String)) :
    List (String × String) :=
  dictOfPairs (auth ++ caller)

/-- Python `value.get(k)`: defined only on dicts, where it returns the
value or `None`; on any other value `.get` raises `AttributeError`. -/
def pyGet (j : Json) (k : String) : Except PyExc (Option Json) :=
  match j with
  | .obj fields => .ok (alookup k fields)
  | _ => .error .attributeError

/-- Python `value[k]` for a string key: on a dict it returns the value or
raises `KeyError`; on any other value it raises `TypeError` (no claim
exercises string or list subscripting with a string key, which also fails). -/
def pyGetItem (j : Json) (k : String) : Except PyExc Json :=
  match j with
  | .obj fields =>
    match alookup k fields with
    | some v => .ok v
    | none => .error .keyError
  | _ => .error .typeError

/-- Python iteration `for x in value`: lists yield elements, dicts yield
keys, strings yield one-character strings, scalars raise `TypeError`. -/
def pyIter (j : Json) : Except PyExc (List Json) :=
  match j with
  | .arr elems => .ok elems
  | .obj fields => .ok (fields.map (fun p => Json.str p.1))
  | .str s => .ok (s.data.map (fun c => Json.str (String.mk [c])))
  | _ => .error .typeError

/-- Python `str()` of a decoded JSON value, as interpolated by the
f-strings in the source. Scalars are rendered exactly; containers go
through the Python repr, whose exact text no code path in this
development depends on, so it is rendered by a fixed marker here. -/
def pyToStr : Json → String
  | .str s => s
  | .num n => toString n
  | .bool true => "True"
  | .bool false => "False"
  | .null => "None"
  | .arr _ => "<container-repr>"
  | .obj _ => "<container-repr>"

/-- The state an `IZClient` holds after `__init__`: the bearer token taken
from the authentication response, and the application key; from these the
stored `_auth_headers` dict is derived. -/
structure Session where
  token : Json
  applicationKey : String
  deriving DecidableEq

/-- The `_auth_headers` dict built at the end of `IZClient.__init__`:
`Authorization: Bearer {token}` and `X-Application-Key`. -/
def Session.authHeaders (s : Session) : List (String × String) :=
  [("Authorization", "Bearer " ++ pyToStr s.token),
   ("X-Application-Key", s.applicationKey)]

namespace IZClient

/-- `IZClient.__init__` from `iz_client.py` (identical in `main.py`),
applied to the response of `POST /token`: `raise_for_status` with nothing
attached on 4xx and 5xx, then `response.json()` (raising
`JSONDecodeError` on a missing or malformed body), then subscripting the
decoded body with the key `token`. -/
def init (applicationKey : String) (authResp : HttpResponse) :
    Except PyExc Session :=
  if isErrorStatus authResp.status then .error .rawHttpError
  else
    match authResp.body with
    | none => .error .jsonDecodeError
    | some b =>
      match pyGetItem b "token" with
      | .ok t => .ok ⟨t, applicationKey⟩
      | .error e => .error e

/-- The headers actually sent by `IZClient._request`: the stored auth
headers dict unpacked first, then the caller-supplied headers dict, later
keys overwriting earlier ones. -/
def sentHeaders (s : Session) (callerHeaders : List (String × String)) :
    List (String × String) :=
  mergeHeaders s.authHeaders callerHeaders

/-- `IZClient._request` from `iz_client.py`, the shared client used by
`analysis_example.py` and `targets_example.py`, applied to the response
the service returned. On 4xx/5xx it attaches the decoded JSON body (or
`{}` when the body does not decode) to the `HTTPError` as
`response_content` and re-raises; on 204 it returns `None`; otherwise it
returns `response.json()`. `get`, `post` and `delete` all delegate here. -/
def request (resp : HttpResponse) : Except PyExc (Option Json) :=
  if isErrorStatus resp.status then
    .error (.httpError (resp.body.getD (Json.obj [])))
  else if resp.status = 204 then
    .ok none
  else
    match resp.body with
    | some j => .ok (some j)
    | none => .error .jsonDecodeError

end IZClient

namespace MainClient

/-- `IZClient._request` from `main.py`, the standalone copy of the client:
identical to the shared one except that it has no 204 branch — on every
success status it unconditionally returns `response.json()`. `get` and
`post` delegate here (this copy exposes no `delete`). -/
def request (resp : HttpResponse) : Except PyExc (Option Json) :=
  if isErrorStatus resp.status then
    .error (.httpError (resp.body.getD (Json.obj [])))
  else
    match resp.body with
    | some j => .ok (some j)
    | none => .error .jsonDecodeError

end MainClient

/-- The outcome of the `while True` polling loop in
`get_analysis_results`: either the `break` with the bound `response` and
the total seconds slept so far, or an uncaught exception with the seconds
slept before it. -/
inductive PollOutcome where
  /-- The loop reached `break`; `response` is the value `client.get`
  returned, `slept` the accumulated seconds of `sleep(5)` calls. -/
  | done (response : Option Json) (slept : Nat)
  /-- An exception escaped the loop body. -/
  | raised (e : PyExc) (slept : Nat)
  deriving DecidableEq

/-- The literal the retry check compares against. -/
def notCompleteMsg : String := "Image analysis not complete"

/-- The polling loop of `get_analysis_results` over the shared client.
`env i` is the response the service gives to the i-th
`GET /upload-results-summary/{upload_id}`. One step: call `client.get`;
on success bind `response` and `break`; on an `HTTPError`, re-raise
unless `e.response_content.get` of the key `error` equals the literal
`Image analysis not complete`, in which case `sleep(5)` and loop (the
`.get` call itself raises `AttributeError` when `response_content` is not
a dict, and a `JSONDecodeError` from a success-status body is not caught
by the `except` clause at all). The source loop is unbounded, so the
model takes fuel: `none` means the loop was still running after `fuel`
attempts. -/
def pollLoop (env : Nat → HttpResponse) : Nat → Nat → Nat → Option PollOutcome
  | 0, _, _ => none
  | fuel + 1, i, slept =>
    match IZClient.request (env i) with
    | .ok v => some (.done v slept)
    | .error (.httpError c) =>
      match pyGet c "error" with
      | .error e => some (.raised e slept)
      | .ok v =>
        if v = some (Json.str notCompleteMsg) then
          pollLoop env fuel (i + 1) (slept + 5)
        else
          some (.raised (.httpError c) slept)
    | .error e => some (.raised e slept)

/-- Runs `f` on each element in order, stopping at the first exception:
the effect of a Python `for` body that only subscripts. -/
def forEachExc (f : Json → Except PyExc Unit) : List Json → Except PyExc Unit
  | [] => .ok ()
  | x :: xs => do
    f x
    forEachExc f xs

/-- The subscripts performed by the two inner print statements of
`get_analysis_results` on one metric: `metric` with keys `name`, `stars`,
`isPassing` (f-string formatting itself cannot fail). -/
def renderMetric (m : Json) : Except PyExc Unit := do
  let _ ← pyGetItem m "name"
  let _ ← pyGetItem m "stars"
  let _ ← pyGetItem m "isPassing"
  .ok ()

/-- The subscripts and iteration performed per metric group. -/
def renderGroup (g : Json) : Except PyExc Unit := do
  let _ ← pyGetItem g "name"
  let ms ← pyGetItem g "metrics"
  let l ← pyIter ms
  forEachExc renderMetric l

/-- The display block after the loop of `get_analysis_results`: the exact
sequence of subscripts and iterations the print statements perform on the
bound `response` (subscripting the `None` returned for a 204 raises
`TypeError`). Only whether an exception escapes is observable to the
caller; the printed text goes to standard output, not to the caller. -/
def renderSummary (response : Option Json) : Except PyExc Unit := do
  match response with
  | none => .error PyExc.typeError
  | some j => do
    let _ ← pyGetItem j "filePath"
    let _ ← pyGetItem j "passing"
    let _ ← pyGetItem j "referenceValuesUsed"
    let _ ← pyGetItem j "spec"
    let _ ← pyGetItem j "targetType"
    let gs ← pyGetItem j "metricGroups"
    let l ← pyIter gs
    forEachExc renderGroup l

/-- `get_analysis_results` from `iz_client.py`, as the caller observes it:
run the polling loop, then print the summary; the function body ends
without a `return` statement, so on the non-exceptional path Python
returns `None` (modelled as `Except.ok none`; the annotation on the
source is literally `-> None`). `none` at the outer option means the
unbounded loop was still polling after `fuel` attempts. -/
def get_analysis_results (env : Nat → HttpResponse) (fuel : Nat) :
    Option (Except PyExc (Option Json)) :=
  match pollLoop env fuel 0 0 with
  | none => none
  | some (.raised e _) => some (.error e)
  | some (.done v _) =>
    match renderSummary v with
    | .ok _ => some (.ok none)
    | .error e => some (.error e)

/-- Splits a character list into the runs between slashes. -/
def splitSlash : List Char → List (List Char)
  | [] => [[]]
  | c :: rest =>
    if c = '/' then [] :: splitSlash rest
    else
      match splitSlash rest with
      | [] => [[c]]
      | s :: ss => (c :: s) :: ss

/-- `Path(image_path).name`: the last slash-separated component, empty
components from doubled or trailing slashes dropped (the pathlib special
cases for `.` and `..` never arise here and are not modelled). -/
def pathName (p : String) : String :=
  String.mk (((splitSlash p.data).filter (fun s => !s.isEmpty)).getLastD [])

/-- One part of the multipart form body that `requests.post(url, data=...,
files=...)` encodes: the `data` dict pairs first, in dict order, then the
entries of `files`. -/
inductive FormPart where
  | field (key value : Json)
  | filePart (fieldName filename contentType : String)
  deriving DecidableEq

/-- The evaluation of the dict comprehension
`{e[key]: e[value] for e in fields}` reads both subscripts of each
element in order; any missing key or non-dict element raises. -/
def fieldPairs : List Json → Except PyExc (List (Json × Json))
  | [] => .ok []
  | e :: rest => do
    let k ← pyGetItem e "key"
    let v ← pyGetItem e "value"
    let tl ← fieldPairs rest
    .ok ((k, v) :: tl)

/-- The responses the service side hands `upload_and_analyze`: the
presigned-URL `GET`, the status of the storage `POST` (its body is never
read), and the `POST /requests-for-analysis/...`. -/
structure UploadEnv where
  presignResp : HttpResponse
  storageStatus : Nat
  analysisResp : HttpResponse
  deriving DecidableEq

/-- What `upload_and_analyze` sent and returned on its non-exceptional
path, for inspection by the theorems. -/
structure UploadTrace where
  /-- The multipart parts of the storage `POST`, in encoded order. -/
  storagePosted : List FormPart
  /-- The path of the analysis-registration `POST`. -/
  analysisPath : String
  /-- The `params` dict passed to that `POST`. -/
  analysisParams : List (String × String)
  /-- The value the function returns. -/
  returned : Json
  deriving DecidableEq

/-- `upload_and_analyze` from `iz_client.py`. In source order: take the
base name of `image_path`; `client.get` the presigned-URL descriptor
(its `None` result for a hypothetical 204 cannot be subscripted:
`TypeError`); subscript `fields` and build the form-data dict by
comprehension; open the file; build `files`; `requests.post` to the
presigned `url` with the form data and the file, the file encoded after
all `data` fields; bare `raise_for_status` on the storage response;
build `params` as `{target_id: ...}` if `target_id` is truthy else `{}`
(so `None` and the empty string both yield `{}`); `client.post` to
`/requests-for-analysis/{uploadId}` with those params; return
`presigned_url_response[uploadId]`. -/
def upload_and_analyze (env : UploadEnv) (image_path : String)
    (target_id : Option String) : Except PyExc UploadTrace := do
  let filename := pathName image_path
  let presigned ← IZClient.request env.presignResp
  let body ←
    match presigned with
    | none => Except.error PyExc.typeError
    | some j => Except.ok j
  let fieldsJson ← pyGetItem body "fields"
  let fieldList ← pyIter fieldsJson
  let pairs ← fieldPairs fieldList
  let form_data := dictOfPairs pairs
  let _ ← pyGetItem body "url"
  let parts := form_data.map (fun p => FormPart.field p.1 p.2)
      ++ [FormPart.filePart "file" filename "image/jpeg"]
  if isErrorStatus env.storageStatus then
    Except.error PyExc.rawHttpError
  else do
    let params :=
      match target_id with
      | some t => if t = "" then [] else [("target_id", t)]
      | none => []
    let uid ← pyGetItem body "uploadId"
    let _ ← IZClient.request env.analysisResp
    let uidAgain ← pyGetItem body "uploadId"
    Except.ok
      { storagePosted := parts,
        analysisPath := "/requests-for-analysis/" ++ pyToStr uid,
        analysisParams := params,
        returned := uidAgain }

/-- `find_matching_target` from `targets_example.py`: a linear scan
comparing `target[name]` with `name`; the subscript raises on a list
element that is not a dict with a `name` key. -/
def find_matching_target (targets : List Json) (name : Json) :
    Except PyExc (Option Json) :=
  match targets with
  | [] => .ok none
  | t :: rest => do
    let n ← pyGetItem t "name"
    if n = name then .ok (some t) else find_matching_target rest name

/-! ### Association-list lemmas about the Python dict model -/

/-- A dict in the model never holds two entries with the same key. -/
def DistinctKeys {α β : Type} (d : List (α × β)) : Prop :=
  (d.map Prod.fst).Nodup

instance {α β : Type} [DecidableEq α] (d : List (α × β)) :
    Decidable (DistinctKeys d) := by
  unfold DistinctKeys
  infer_instance

theorem alookup_append {α β : Type} [DecidableEq α] (k : α)
    (l₁ l₂ : List (α × β)) :
    alookup k (l₁ ++ l₂) =
      match alookup k l₁ with
      | some v => some v
      | none => alookup k l₂ := by
  induction l₁ with
  | nil => simp [alookup]
  | cons p rest ih =>
    by_cases h : p.1 = k <;> simp [alookup, h, ih]

theorem alookup_eq_none {α β : Type} [DecidableEq α] (k : α)
    (l : List (α × β)) (h : ∀ p ∈ l, p.1 ≠ k) : alookup k l = none := by
  induction l with
  | nil => rfl
  | cons p rest ih =>
    simp only [alookup, if_neg (h p (by simp))]
    exact ih (fun q hq => h q (by simp [hq]))

theorem alookup_map_replace {α β : Type} [DecidableEq α]
    (d : List (α × β)) (k k' : α) (v : β) :
    alookup k (d.map (fun p => if p.1 = k' then (k', v) else p)) =
      if k = k' then
        (if d.any (fun p => decide (p.1 = k')) then some v else none)
      else alookup k d := by
  induction d with
  | nil => by_cases hk : k = k' <;> simp [alookup, hk]
  | cons p rest ih =>
    by_cases hp : p.1 = k'
    · by_cases hk : k = k'
      · subst hk
        simp [alookup, hp]
      · have hk' : ¬k' = k := fun h => hk h.symm
        have hpk : ¬p.1 = k := fun h => hk (by rw [← h, hp])
        simp [alookup, hp, hk, hk', hpk, ih]
    · by_cases hpk : p.1 = k
      · have hk : ¬k = k' := fun h => hp (hpk.trans h)
        simp [alookup, hp, hpk, hk]
      · simp only [alookup, List.map_cons, if_neg hp, if_neg hpk, ih,
          List.any_cons, decide_eq_false hp, Bool.false_or]

theorem alookup_insertItem {α β : Type} [DecidableEq α]
    (d : List (α × β)) (k k' : α) (v : β) :
    alookup k (insertItem d k' v) =
      if k = k' then some v else alookup k d := by
  unfold insertItem
  by_cases hany : d.any (fun p => decide (p.1 = k')) = true
  · rw [if_pos hany, alookup_map_replace, hany]
    by_cases hk : k = k' <;> simp [hk]
  · rw [if_neg hany, alookup_append]
    have hnone : ∀ q ∈ d, q.1 ≠ k' := by
      intro q hq hq1
      exact hany (List.any_eq_true.mpr ⟨q, hq, by simp [hq1]⟩)
    by_cases hk : k = k'
    · subst hk
      rw [alookup_eq_none k d (fun p hp => hnone p hp)]
      simp [alookup]
    · have hk' : ¬k' = k := fun h => hk h.symm
      simp only [alookup, if_neg hk']
      cases halo : alookup k d <;> simp [halo, hk, hk']

theorem alookup_foldl_insertItem {α β : Type} [DecidableEq α]
    (l : List (α × β)) (k : α) :
    ∀ acc : List (α × β),
    alookup k (l.foldl (fun d p => insertItem d p.1 p.2) acc) =
      match alookup k l.reverse with
      | some v => some v
      | none => alookup k acc := by
  induction l with
  | nil => intro acc; simp [alookup]
  | cons p rest ih =>
    intro acc
    simp only [List.foldl_cons, List.reverse_cons]
    rw [ih, alookup_append, alookup_insertItem]
    cases h : alookup k rest.reverse with
    | some v => simp
    | none =>
      by_cases hk : k = p.1
      · simp [alookup, hk]
      · have hk' : ¬p.1 = k := fun hh => hk hh.symm
        simp [alookup, hk, hk']

theorem alookup_dictOfPairs {α β : Type} [DecidableEq α]
    (pairs : List (α × β)) (k : α) :
    alookup k (dictOfPairs pairs) = alookup k pairs.reverse := by
  unfold dictOfPairs
  rw [alookup_foldl_insertItem]
  cases h : alookup k pairs.reverse <;> simp [h, alookup]

theorem insertItem_of_no_key {α β : Type} [DecidableEq α]
    (d : List (α × β)) (k : α) (v : β) (h : ∀ q ∈ d, q.1 ≠ k) :
    insertItem d k v = d ++ [(k, v)] := by
  unfold insertItem
  have hany : d.any (fun p => decide (p.1 = k)) = false := by
    rw [List.any_eq_false]
    intro q hq
    simp [h q hq]
  simp [hany]

theorem foldl_insertItem_of_distinct {α β : Type} [DecidableEq α] :
    ∀ (l acc : List (α × β)),
    (∀ p ∈ acc, ∀ q ∈ l, p.1 ≠ q.1) → DistinctKeys l →
    l.foldl (fun d p => insertItem d p.1 p.2) acc = acc ++ l := by
  intro l
  induction l with
  | nil => intro acc _ _; simp
  | cons p rest ih =>
    intro acc hdisj hdk
    have hdk' : p.1 ∉ rest.map Prod.fst ∧ DistinctKeys rest := by
      simpa [DistinctKeys] using hdk
    have hins : insertItem acc p.1 p.2 = acc ++ [p] := by
      rw [insertItem_of_no_key]
      intro q hq
      exact hdisj q hq p (by simp)
    simp only [List.foldl_cons, hins]
    rw [ih (acc ++ [p]) ?_ hdk'.2]
    · simp
    · intro x hx q hq
      rcases List.mem_append.mp hx with hx | hx
      · exact hdisj x hx q (by simp [hq])
      · have hxp : x = p := by simpa using hx
        subst hxp
        intro hcon
        exact hdk'.1 (hcon ▸ List.mem_map_of_mem Prod.fst hq)

theorem dictOfPairs_of_distinct {α β : Type} [DecidableEq α]
    (pairs : List (α × β)) (h : DistinctKeys pairs) :
    dictOfPairs pairs = pairs := by
  unfold dictOfPairs
  rw [foldl_insertItem_of_distinct pairs [] (by simp) h]
  simp

theorem distinctKeys_insertItem {α β : Type} [DecidableEq α]
    (d : List (α × β)) (k : α) (v : β) (h : DistinctKeys d) :
    DistinctKeys (insertItem d k v) := by
  unfold insertItem
  by_cases hany : d.any (fun p => decide (p.1 = k)) = true
  · have hmap : (d.map (fun p => if p.1 = k then (k, v) else p)).map Prod.fst
        = d.map Prod.fst := by
      rw [List.map_map]
      apply List.map_congr_left
      intro q _
      by_cases hq : q.1 = k <;> simp [hq]
    simpa [DistinctKeys, hany, hmap] using h
  · have hnk : k ∉ d.map Prod.fst := by
      intro hmem
      rcases List.mem_map.mp hmem with ⟨q, hq, hq1⟩
      exact hany (List.any_eq_true.mpr ⟨q, hq, by simp [hq1]⟩)
    rw [if_neg hany]
    unfold DistinctKeys
    rw [List.map_append, List.nodup_append]
    refine ⟨h, by simp, ?_⟩
    intro a ha hb
    simp only [List.map_cons, List.map_nil, List.mem_singleton] at hb
    subst hb
    exact hnk ha

theorem distinctKeys_foldl_insertItem {α β : Type} [DecidableEq α] :
    ∀ (l acc : List (α × β)), DistinctKeys acc →
    DistinctKeys (l.foldl (fun d p => insertItem d p.1 p.2) acc) := by
  intro l
  induction l with
  | nil => intro acc h; exact h
  | cons p rest ih =>
    intro acc h
    exact ih (insertItem acc p.1 p.2) (distinctKeys_insertItem acc p.1 p.2 h)

theorem distinctKeys_dictOfPairs {α β : Type} [DecidableEq α]
    (pairs : List (α × β)) : DistinctKeys (dictOfPairs pairs) :=
  distinctKeys_foldl_insertItem pairs [] (by simp [DistinctKeys])

theorem filter_eq_single_of_alookup {α β : Type} [DecidableEq α]
    (d : List (α × β)) (k : α) (v : β) (hdk : DistinctKeys d)
    (h : alookup k d = some v) :
    d.filter (fun p => decide (p.1 = k)) = [(k, v)] := by
  induction d with
  | nil => simp [alookup] at h
  | cons p rest ih =>
    have hdk' : p.1 ∉ rest.map Prod.fst ∧ DistinctKeys rest := by
      simpa [DistinctKeys] using hdk
    by_cases hp : p.1 = k
    · simp only [alookup, if_pos hp, Option.some.injEq] at h
      have hpv : p = (k, v) := by
        cases p
        simp_all
      have hfil : rest.filter (fun q => decide (q.1 = k)) = [] := by
        apply List.filter_eq_nil_iff.mpr
        intro q hq
        simp only [decide_eq_true_eq]
        intro hq1
        exact hdk'.1 (hp ▸ hq1 ▸ List.mem_map_of_mem Prod.fst hq)
      simp [List.filter_cons, hp, hfil, hpv]
    · simp only [alookup, if_neg hp] at h
      simp [List.filter_cons, hp, ih hdk'.2 h]

theorem alookup_isSome_of_mem {α β : Type} [DecidableEq α] (k : α) :
    ∀ (l : List (α × β)) (p : α × β), p ∈ l → p.1 = k →
    ∃ v, alookup k l = some v := by
  intro l
  induction l with
  | nil => simp
  | cons q rest ih =>
    intro p hp hk
    by_cases hq : q.1 = k
    · exact ⟨q.2, by simp [alookup, hq]⟩
    · rcases List.mem_cons.mp hp with h | h
      · subst h
        exact absurd hk hq
      · rcases ih p h hk with ⟨v, hv⟩
        exact ⟨v, by simp [alookup, hq, hv]⟩

/-- Whether a multipart form part is a data field with the given key. -/
def FormPart.hasKey (k : Json) : FormPart → Bool
  | .field k' _ => decide (k' = k)
  | .filePart _ _ _ => false

theorem filter_hasKey_map (pairs : List (Json × Json)) (k : Json) :
    (pairs.map (fun p => FormPart.field p.1 p.2)).filter (FormPart.hasKey k)
      = (pairs.filter (fun p => decide (p.1 = k))).map
          (fun p => FormPart.field p.1 p.2) := by
  induction pairs with
  | nil => rfl
  | cons p rest ih =>
    by_cases hp : p.1 = k <;>
      simp [FormPart.hasKey, List.filter_cons, hp, ih]

/-! ### Claim theorems -/

/-- An error body whose `error` field holds the retry literal next to a
second field: not exactly equal to the single-field retry body. -/
def retryBodyExtra : Json :=
  Json.obj [("error", Json.str notCompleteMsg), ("detail", Json.str "queued")]

/-- A service that answers every poll with status 409 and
`retryBodyExtra`. -/
def pollEnvExtra : Nat → HttpResponse :=
  fun _ => ⟨409, some retryBodyExtra⟩

/-- Claim C1, amended: the poll loop of `get_analysis_results` sleeps a
fixed 5 seconds and retries, indefinitely with no maximum attempt count,
exactly on an `HTTPError` whose attached body has an `error` field equal
to the literal `Image analysis not complete` — regardless of any other
fields in the body; an `HTTPError` whose body yields any other value for
that field propagates immediately on the first attempt at which it
occurs. -/
theorem claim_C1_retry_policy :
    (∀ (env : Nat → HttpResponse) (fuel i slept : Nat) (c : Json),
      IZClient.request (env i) = .error (.httpError c) →
      pyGet c "error" = .ok (some (Json.str notCompleteMsg)) →
      pollLoop env (fuel + 1) i slept = pollLoop env fuel (i + 1) (slept + 5)) ∧
    (∀ (env : Nat → HttpResponse) (fuel i slept : Nat) (c : Json)
      (r : Option Json),
      IZClient.request (env i) = .error (.httpError c) →
      pyGet c "error" = .ok r → r ≠ some (Json.str notCompleteMsg) →
      pollLoop env (fuel + 1) i slept = some (.raised (.httpError c) slept)) ∧
    (∀ env : Nat → HttpResponse,
      (∀ i, ∃ c, IZClient.request (env i) = .error (.httpError c) ∧
        pyGet c "error" = .ok (some (Json.str notCompleteMsg))) →
      ∀ fuel i slept, pollLoop env fuel i slept = none) := by
  refine ⟨?_, ?_, ?_⟩
  · intro env fuel i slept c h1 h2
    simp [pollLoop, h1, h2]
  · intro env fuel i slept c r h1 h2 hr
    simp [pollLoop, h1, h2, hr]
  · intro env h fuel
    induction fuel with
    | zero => intro i slept; rfl
    | succ n ih =>
      intro i slept
      rcases h i with ⟨c, hc, hg⟩
      simp only [pollLoop, hc, hg, if_pos rfl]
      exact ih (i + 1) (slept + 5)

/-- Witness for C1: a service permanently answering with
`retryBodyExtra` makes the loop run forever — after any number of
attempts it is still polling — and one step of the loop is exactly a
5-second sleep plus a retry. -/
theorem claim_C1_retry_policy_witness :
    pollLoop pollEnvExtra 1 0 0 = pollLoop pollEnvExtra 0 1 5 ∧
    pollLoop pollEnvExtra 9 0 0 = none :=
  ⟨claim_C1_retry_policy.1 pollEnvExtra 0 0 0 retryBodyExtra rfl rfl,
   claim_C1_retry_policy.2.2 pollEnvExtra
     (fun _ => ⟨retryBodyExtra, rfl, rfl⟩) 9 0 0⟩

/-- Counterexample to C1 as stated: `retryBodyExtra` is not exactly equal
to the single-field body `{error: Image analysis not complete}`, so by
the claim it should propagate immediately on the first attempt; instead
the loop retries (it does not raise, and one step later it is still
polling). -/
theorem claim_C1_counterexample :
    IZClient.request (pollEnvExtra 0) = .error (.httpError retryBodyExtra) ∧
    retryBodyExtra ≠ Json.obj [("error", Json.str notCompleteMsg)] ∧
    pollLoop pollEnvExtra 1 0 0
      ≠ some (.raised (.httpError retryBodyExtra) 0) := by
  refine ⟨rfl, by decide, by decide⟩

/-- The example summary body of the end-to-end scenario in the spec. -/
def summaryExample : Json :=
  Json.obj [("filePath", Json.str "a.jpg"), ("passing", Json.bool true),
    ("referenceValuesUsed", Json.str "defaults"), ("spec", Json.str "v1"),
    ("targetType", Json.str "x"), ("metricGroups", Json.arr [])]

/-- A service whose first poll already returns `summaryExample`. -/
def pollEnvDone : Nat → HttpResponse :=
  fun _ => ⟨200, some summaryExample⟩

/-- Claim C2, amended: a successful poll makes the loop exit with the
decoded service response bound unchanged, and `get_analysis_results`
then renders that structure to standard output — the function itself
returns no value (Python `None`), not the summary. -/
theorem claim_C2_loop_value :
    (∀ (env : Nat → HttpResponse) (fuel i slept : Nat) (v : Option Json),
      IZClient.request (env i) = .ok v →
      pollLoop env (fuel + 1) i slept = some (.done v slept)) ∧
    (∀ (env : Nat → HttpResponse) (fuel slept : Nat) (v : Option Json),
      pollLoop env fuel 0 0 = some (.done v slept) →
      renderSummary v = .ok () →
      get_analysis_results env fuel = some (.ok none)) := by
  constructor
  · intro env fuel i slept v h
    simp [pollLoop, h]
  · intro env fuel slept v h1 h2
    simp [get_analysis_results, h1, h2]

/-- Witness for C2: with `pollEnvDone` the loop exits on attempt one with
the example summary unchanged, and the function returns `None`. -/
theorem claim_C2_loop_value_witness :
    pollLoop pollEnvDone 1 0 0 = some (.done (some summaryExample) 0) ∧
    get_analysis_results pollEnvDone 1 = some (.ok none) := by
  have h1 := claim_C2_loop_value.1 pollEnvDone 0 0 0 (some summaryExample) rfl
  exact ⟨h1, claim_C2_loop_value.2 pollEnvDone 1 0 (some summaryExample) h1
    (by decide)⟩

/-- Counterexample to C2 as stated: on the successful poll of the
end-to-end scenario the function returns the empty Python `None`, not
the parsed summary structure. -/
theorem claim_C2_counterexample :
    get_analysis_results pollEnvDone 1 = some (.ok none) ∧
    (some (Except.ok none) : Option (Except PyExc (Option Json)))
      ≠ some (.ok (some summaryExample)) := by
  refine ⟨by decide, by decide⟩

/-- Claim C3, amended: for the shared client of `iz_client.py` a success
status of 204 yields the empty result `None` and any other success
status with a decoded JSON body yields that structure; the standalone
client of `main.py` has no 204 branch, so a bodiless 204 raises
`JSONDecodeError` there instead of yielding an empty result. -/
theorem claim_C3_success_results (resp : HttpResponse)
    (h : isErrorStatus resp.status = false) :
    (resp.status = 204 → IZClient.request resp = .ok none) ∧
    (∀ j, resp.body = some j → resp.status ≠ 204 →
      IZClient.request resp = .ok (some j)) := by
  constructor
  · intro h204
    simp [IZClient.request, isErrorStatus, h204]
  · intro j hj h204
    simp [IZClient.request, h, h204, hj]

/-- Witness for C3: a bodiless 204 yields `None` and a 200 with a JSON
body yields the decoded structure, through the shared client. -/
theorem claim_C3_success_results_witness :
    IZClient.request ⟨204, none⟩ = .ok none ∧
    IZClient.request ⟨200, some (Json.obj [])⟩ = .ok (some (Json.obj [])) :=
  ⟨(claim_C3_success_results ⟨204, none⟩ rfl).1 rfl,
   (claim_C3_success_results ⟨200, some (Json.obj [])⟩ rfl).2
     (Json.obj []) rfl (by decide)⟩

/-- Counterexample to C3 as stated: through the `main.py` client — one of
the two cited implementations of the Session request operations — a
success response with no body (204) does not yield an empty result, it
raises `JSONDecodeError`. -/
theorem claim_C3_counterexample :
    MainClient.request ⟨204, none⟩ = .error .jsonDecodeError ∧
    (Except.error PyExc.jsonDecodeError : Except PyExc (Option Json))
      ≠ .ok none := by
  refine ⟨rfl, by decide⟩

/-- Claim C4, amended: a request fails with an `HTTPError` carrying an
attached decoded body exactly when the response status is in the 4xx/5xx
range `raise_for_status` rejects, and the attached body is the decoded
JSON when the body decodes and `{}` otherwise; in addition — beyond the
claim's iff — a success-status response whose body is missing or not
valid JSON fails with `JSONDecodeError` rather than returning. -/
theorem claim_C4_error_iff (resp : HttpResponse) :
    (isErrorStatus resp.status = true ↔
      ∃ c, IZClient.request resp = .error (.httpError c)) ∧
    (∀ c, IZClient.request resp = .error (.httpError c) →
      c = resp.body.getD (Json.obj [])) := by
  by_cases herr : isErrorStatus resp.status = true
  · constructor
    · simp [IZClient.request, herr]
    · intro c hc
      simp only [IZClient.request, if_pos herr, Except.error.injEq,
        PyExc.httpError.injEq] at hc
      exact hc.symm
  · have hno : ∀ c, IZClient.request resp ≠ .error (.httpError c) := by
      intro c hc
      unfold IZClient.request at hc
      rw [if_neg herr] at hc
      by_cases h204 : resp.status = 204
      · rw [if_pos h204] at hc
        simp at hc
      · rw [if_neg h204] at hc
        cases hb : resp.body with
        | some j => rw [hb] at hc; simp at hc
        | none => rw [hb] at hc; simp at hc
    constructor
    · constructor
      · intro h
        exact absurd h herr
      · rintro ⟨c, hc⟩
        exact absurd hc (hno c)
    · intro c hc
      exact absurd hc (hno c)

/-- Witness for C4: a 404 with a decoded body raises carrying that body,
a 500 with an undecodable body raises carrying `{}`, and a 200 never
raises an `HTTPError`. -/
theorem claim_C4_error_iff_witness :
    (∃ c, IZClient.request ⟨404, some (Json.obj [("error", Json.str "no")])⟩
      = .error (.httpError c)) ∧
    ((Json.obj [("error", Json.str "no")] : Json) =
      (some (Json.obj [("error", Json.str "no")])).getD (Json.obj [])) ∧
    ¬(isErrorStatus 200 = true) :=
  ⟨(claim_C4_error_iff ⟨404, some (Json.obj [("error", Json.str "no")])⟩).1.mp
      rfl,
   ((claim_C4_error_iff ⟨404, some (Json.obj [("error", Json.str "no")])⟩).2
      (Json.obj [("error", Json.str "no")]) (by decide)).symm ▸ rfl,
   by decide⟩

/-- Counterexample to C4 as stated: a 200 response whose body does not
decode as JSON makes the operation fail (with `JSONDecodeError`), so
failure is not equivalent to a non-success status. -/
theorem claim_C4_counterexample :
    IZClient.request ⟨200, none⟩ = .error .jsonDecodeError ∧
    isErrorStatus 200 = false := by
  refine ⟨rfl, by decide⟩

/-- Claim C5, amended: a constructed Session attaches
`Bearer {token}` as the `Authorization` header of every request whose
caller-supplied headers do not themselves contain an `Authorization`
key; a caller-supplied `Authorization` header overwrites the stored one,
because the merge unpacks the auth headers first. -/
theorem claim_C5_auth_header (appKey : String) (authResp : HttpResponse)
    (s : Session) (_hinit : IZClient.init appKey authResp = .ok s)
    (caller : List (String × String))
    (hcaller : ∀ p ∈ caller, p.1 ≠ "Authorization") :
    alookup "Authorization" (IZClient.sentHeaders s caller)
      = some ("Bearer " ++ pyToStr s.token) := by
  unfold IZClient.sentHeaders mergeHeaders
  rw [alookup_dictOfPairs, List.reverse_append, alookup_append]
  rw [alookup_eq_none _ caller.reverse
    (fun p hp => hcaller p (List.mem_reverse.mp hp))]
  unfold Session.authHeaders
  simp only [List.reverse_cons, List.reverse_nil, List.nil_append,
    List.cons_append, alookup]
  rw [if_neg (by decide)]
  simp

/-- Witness for C5: a session with token `tok` sends
`Authorization: Bearer tok` when the caller adds an unrelated header. -/
theorem claim_C5_auth_header_witness :
    alookup "Authorization"
      (IZClient.sentHeaders ⟨Json.str "tok", "app"⟩
        [("Accept", "application/json")])
      = some ("Bearer tok") :=
  claim_C5_auth_header "app" ⟨200, some (Json.obj [("token", Json.str "tok")])⟩
    ⟨Json.str "tok", "app"⟩ rfl [("Accept", "application/json")]
    (by decide)

/-- Counterexample to C5 as stated: the claim quantifies over every
combination of caller-supplied headers, but a caller-supplied
`Authorization` header wins the merge, so the request does not carry the
session token. -/
theorem claim_C5_counterexample :
    IZClient.init "app" ⟨200, some (Json.obj [("token", Json.str "tok")])⟩
      = .ok ⟨Json.str "tok", "app"⟩ ∧
    alookup "Authorization"
      (IZClient.sentHeaders ⟨Json.str "tok", "app"⟩
        [("Authorization", "Basic x")])
      = some "Basic x" ∧
    some "Basic x" ≠ some ("Bearer tok") := by
  refine ⟨rfl, by decide, by decide⟩

/-- Claim C6, amended: when the keys of the presigned fields are pairwise
distinct, the multipart body posted to the storage URL consists of all
presigned fields, in the order received, followed by the file as the
final part; duplicate keys (refuted below) collapse through the dict
comprehension instead. -/
theorem claim_C6_multipart_order
    (env : UploadEnv) (image_path : String) (tid : Option String)
    (body fieldsJson url uid : Json) (fieldList : List Json)
    (pairs : List (Json × Json)) (anaRes : Option Json)
    (hp : IZClient.request env.presignResp = .ok (some body))
    (hfields : pyGetItem body "fields" = .ok fieldsJson)
    (hiter : pyIter fieldsJson = .ok fieldList)
    (hpairs : fieldPairs fieldList = .ok pairs)
    (hurl : pyGetItem body "url" = .ok url)
    (hstor : isErrorStatus env.storageStatus = false)
    (huid : pyGetItem body "uploadId" = .ok uid)
    (hana : IZClient.request env.analysisResp = .ok anaRes)
    (hdk : DistinctKeys pairs) :
    ∃ tr, upload_and_analyze env image_path tid = .ok tr ∧
      tr.storagePosted =
        pairs.map (fun p => FormPart.field p.1 p.2)
          ++ [FormPart.filePart "file" (pathName image_path) "image/jpeg"] := by
  have heq : upload_and_analyze env image_path tid = .ok
      { storagePosted :=
          (dictOfPairs pairs).map (fun p => FormPart.field p.1 p.2)
            ++ [FormPart.filePart "file" (pathName image_path) "image/jpeg"],
        analysisPath := "/requests-for-analysis/" ++ pyToStr uid,
        analysisParams :=
          match tid with
          | some t => if t = "" then [] else [("target_id", t)]
          | none => [],
        returned := uid } := by
    unfold upload_and_analyze
    simp only [bind, Except.bind, hp, hfields, hiter, hpairs, hurl, huid, hana]
    rw [if_neg (by simp [hstor])]
  exact ⟨_, heq, by simp [dictOfPairs_of_distinct pairs hdk]⟩

/-- Witness for C6: a presign response with two distinct-keyed fields
produces the two field parts in order, then the file part. -/
theorem claim_C6_multipart_order_witness :
    ∃ tr, upload_and_analyze
        ⟨⟨200, some (Json.obj [("url", Json.str "https://s3/x"),
          ("fields", Json.arr
            [Json.obj [("key", Json.str "k1"), ("value", Json.str "v1")],
             Json.obj [("key", Json.str "k2"), ("value", Json.str "v2")]]),
          ("uploadId", Json.str "u1")])⟩, 204, ⟨200, some (Json.obj [])⟩⟩
        "images/a.jpg" none = .ok tr ∧
      tr.storagePosted =
        [(Json.str "k1", Json.str "v1"), (Json.str "k2", Json.str "v2")].map
            (fun p => FormPart.field p.1 p.2)
          ++ [FormPart.filePart "file" (pathName "images/a.jpg") "image/jpeg"] :=
  claim_C6_multipart_order _ "images/a.jpg" none _ _ (Json.str "https://s3/x")
    (Json.str "u1") _ _ (some (Json.obj [])) rfl rfl rfl rfl rfl (by decide)
    rfl rfl (by decide)

/-- A presign response whose two fields share the key `k`. -/
def dupFieldsEnv : UploadEnv :=
  ⟨⟨200, some (Json.obj [("url", Json.str "https://s3/x"),
    ("fields", Json.arr
      [Json.obj [("key", Json.str "k"), ("value", Json.str "v1")],
       Json.obj [("key", Json.str "k"), ("value", Json.str "v2")]]),
    ("uploadId", Json.str "u1")])⟩, 204, ⟨200, some (Json.obj [])⟩⟩

/-- Counterexample to C6 as stated: with two presigned fields sharing a
key, the posted form keeps a single part for that key (the last value),
so the body does not contain all presigned fields in the order
received. -/
theorem claim_C6_counterexample :
    (upload_and_analyze dupFieldsEnv "a.jpg" none).map
        (fun tr => tr.storagePosted)
      = .ok [FormPart.field (Json.str "k") (Json.str "v2"),
             FormPart.filePart "file" "a.jpg" "image/jpeg"] ∧
    [FormPart.field (Json.str "k") (Json.str "v2"),
     FormPart.filePart "file" "a.jpg" "image/jpeg"]
      ≠ [FormPart.field (Json.str "k") (Json.str "v1"),
         FormPart.field (Json.str "k") (Json.str "v2"),
         FormPart.filePart "file" "a.jpg" "image/jpeg"] := by
  refine ⟨by decide, by decide⟩

/-- Claim C7, amended: `upload_and_analyze` registers the uploaded object
by a `POST` to `/requests-for-analysis/{uploadId}` with the `uploadId`
of the presign response, returns that same `uploadId`, and passes
`target_id` as a query parameter exactly when the supplied identifier is
truthy — a supplied empty string, being falsy in Python, sends no
parameter, just like no identifier at all. -/
theorem claim_C7_analysis_registration
    (env : UploadEnv) (image_path : String) (tid : Option String)
    (body fieldsJson url uid : Json) (fieldList : List Json)
    (pairs : List (Json × Json)) (anaRes : Option Json)
    (hp : IZClient.request env.presignResp = .ok (some body))
    (hfields : pyGetItem body "fields" = .ok fieldsJson)
    (hiter : pyIter fieldsJson = .ok fieldList)
    (hpairs : fieldPairs fieldList = .ok pairs)
    (hurl : pyGetItem body "url" = .ok url)
    (hstor : isErrorStatus env.storageStatus = false)
    (huid : pyGetItem body "uploadId" = .ok uid)
    (hana : IZClient.request env.analysisResp = .ok anaRes) :
    ∃ tr, upload_and_analyze env image_path tid = .ok tr ∧
      tr.analysisPath = "/requests-for-analysis/" ++ pyToStr uid ∧
      tr.returned = uid ∧
      (∀ t, tid = some t → t ≠ "" → tr.analysisParams = [("target_id", t)]) ∧
      (tid = none → tr.analysisParams = []) ∧
      (tid = some "" → tr.analysisParams = []) := by
  have heq : upload_and_analyze env image_path tid = .ok
      { storagePosted :=
          (dictOfPairs pairs).map (fun p => FormPart.field p.1 p.2)
            ++ [FormPart.filePart "file" (pathName image_path) "image/jpeg"],
        analysisPath := "/requests-for-analysis/" ++ pyToStr uid,
        analysisParams :=
          match tid with
          | some t => if t = "" then [] else [("target_id", t)]
          | none => [],
        returned := uid } := by
    unfold upload_and_analyze
    simp only [bind, Except.bind, hp, hfields, hiter, hpairs, hurl, huid, hana]
    rw [if_neg (by simp [hstor])]
  refine ⟨_, heq, rfl, rfl, ?_, ?_, ?_⟩
  · intro t ht hne
    subst ht
    simp [hne]
  · intro ht
    subst ht
    rfl
  · intro ht
    subst ht
    rfl

/-- Witness for C7: with a truthy target identifier `t1`, the analysis
`POST` goes to `/requests-for-analysis/u1`, carries
`target_id=t1`, and `u1` is returned. -/
theorem claim_C7_analysis_registration_witness :
    ∃ tr, upload_and_analyze
        ⟨⟨200, some (Json.obj [("url", Json.str "https://s3/x"),
          ("fields", Json.arr
            [Json.obj [("key", Json.str "k"), ("value", Json.str "v")]]),
          ("uploadId", Json.str "u1")])⟩, 204, ⟨200, some (Json.obj [])⟩⟩
        "images/a.jpg" (some "t1") = .ok tr ∧
      tr.analysisPath = "/requests-for-analysis/" ++ pyToStr (Json.str "u1") ∧
      tr.returned = Json.str "u1" ∧
      (∀ t, some "t1" = some t → t ≠ "" →
        tr.analysisParams = [("target_id", t)]) ∧
      ((some "t1" : Option String) = none → tr.analysisParams = []) ∧
      (some "t1" = some "" → tr.analysisParams = []) :=
  claim_C7_analysis_registration _ "images/a.jpg" (some "t1") _ _
    (Json.str "https://s3/x") (Json.str "u1") _ _ (some (Json.obj []))
    rfl rfl rfl rfl rfl (by decide) rfl rfl

/-- Counterexample to C7 as stated: the empty string is a supplied target
identifier, yet the registration request carries no `target_id`
parameter, because the source guards on Python truthiness rather than on
presence. -/
theorem claim_C7_counterexample :
    (upload_and_analyze dupFieldsEnv "a.jpg" (some "")).map
        (fun tr => tr.analysisParams)
      = .ok [] ∧
    (some "" : Option String) ≠ none := by
  refine ⟨by decide, by decide⟩

theorem find_matching_target_none (name : Json) :
    ∀ targets : List Json,
    (∀ t ∈ targets, ∃ n, pyGetItem t "name" = .ok n) →
    (∀ t ∈ targets, pyGetItem t "name" ≠ .ok name) →
    find_matching_target targets name = .ok none := by
  intro targets
  induction targets with
  | nil => intro _ _; rfl
  | cons t rest ih =>
    intro hwf hne
    rcases hwf t (by simp) with ⟨n, hn⟩
    have hnn : ¬n = name := fun h => hne t (by simp) (h ▸ hn)
    simp only [find_matching_target, bind, Except.bind, hn, if_neg hnn]
    exact ih (fun q hq => hwf q (by simp [hq]))
      (fun q hq => hne q (by simp [hq]))

theorem find_matching_target_first (name : Json) :
    ∀ (pre : List Json) (t : Json) (post : List Json),
    (∀ q ∈ pre, ∃ n, pyGetItem q "name" = .ok n ∧ n ≠ name) →
    pyGetItem t "name" = .ok name →
    find_matching_target (pre ++ t :: post) name = .ok (some t) := by
  intro pre
  induction pre with
  | nil =>
    intro t post _ ht
    simp [find_matching_target, bind, Except.bind, ht]
  | cons q pre' ih =>
    intro t post hpre ht
    rcases hpre q (by simp) with ⟨n, hn, hne⟩
    simp only [List.cons_append, find_matching_target, bind, Except.bind,
      hn, if_neg hne]
    exact ih t post (fun x hx => hpre x (by simp [hx])) ht

/-- Claim C8: `find_matching_target` scans the target list (each element
a record carrying a `name`) left to right and returns the first element
whose name equals the given one, `None` when no element matches — in
particular on the empty list — and the earliest match when several
share the name. -/
theorem claim_C8_find_first (targets : List Json) (name : Json)
    (hwf : ∀ t ∈ targets, ∃ n, pyGetItem t "name" = .ok n) :
    (targets = [] → find_matching_target targets name = .ok none) ∧
    ((∀ t ∈ targets, pyGetItem t "name" ≠ .ok name) →
      find_matching_target targets name = .ok none) ∧
    (∀ pre t post, targets = pre ++ t :: post →
      (∀ q ∈ pre, pyGetItem q "name" ≠ .ok name) →
      pyGetItem t "name" = .ok name →
      find_matching_target targets name = .ok (some t)) := by
  refine ⟨?_, ?_, ?_⟩
  · intro h
    subst h
    rfl
  · exact find_matching_target_none name targets hwf
  · intro pre t post hsplit hpre ht
    subst hsplit
    apply find_matching_target_first name pre t post ?_ ht
    intro q hq
    rcases hwf q (by simp [hq]) with ⟨n, hn⟩
    refine ⟨n, hn, fun h => hpre q hq (h ▸ hn)⟩

/-- Two targets sharing the name `T`. -/
def targetsShared : List Json :=
  [Json.obj [("name", Json.str "T"), ("id", Json.num 1)],
   Json.obj [("name", Json.str "T"), ("id", Json.num 2)]]

/-- Witness for C8: on a list with two targets named `T`, the scan
returns the first; on the empty list it returns `None`. -/
theorem claim_C8_find_first_witness :
    find_matching_target targetsShared (Json.str "T")
      = .ok (some (Json.obj [("name", Json.str "T"), ("id", Json.num 1)])) ∧
    find_matching_target [] (Json.str "T") = .ok none := by
  have hwf : ∀ t ∈ targetsShared, ∃ n, pyGetItem t "name" = .ok n := by
    intro t ht
    simp only [targetsShared, List.mem_cons, List.not_mem_nil, or_false] at ht
    rcases ht with h | h <;> subst h <;> exact ⟨Json.str "T", rfl⟩
  refine ⟨?_, (claim_C8_find_first [] (Json.str "T") (by simp)).1 rfl⟩
  exact (claim_C8_find_first targetsShared (Json.str "T") hwf).2.2 []
    (Json.obj [("name", Json.str "T"), ("id", Json.num 1)])
    [Json.obj [("name", Json.str "T"), ("id", Json.num 2)]]
    rfl (by simp) rfl

/-- Claim C9: when the presigned fields list holds two or more entries
with the same key, the form data posted to the storage URL keeps exactly
one part for that key, carrying the value of the last such entry; the
earlier duplicate-key fields are silently dropped by the dict
comprehension. -/
theorem claim_C9_duplicate_keys
    (env : UploadEnv) (image_path : String) (tid : Option String)
    (body fieldsJson url uid : Json) (fieldList : List Json)
    (pairs : List (Json × Json)) (anaRes : Option Json)
    (hp : IZClient.request env.presignResp = .ok (some body))
    (hfields : pyGetItem body "fields" = .ok fieldsJson)
    (hiter : pyIter fieldsJson = .ok fieldList)
    (hpairs : fieldPairs fieldList = .ok pairs)
    (hurl : pyGetItem body "url" = .ok url)
    (hstor : isErrorStatus env.storageStatus = false)
    (huid : pyGetItem body "uploadId" = .ok uid)
    (hana : IZClient.request env.analysisResp = .ok anaRes)
    (k : Json)
    (hdup : 2 ≤ pairs.countP (fun p => decide (p.1 = k))) :
    ∃ tr v, upload_and_analyze env image_path tid = .ok tr ∧
      alookup k pairs.reverse = some v ∧
      tr.storagePosted.filter (FormPart.hasKey k) = [FormPart.field k v] := by
  have heq : upload_and_analyze env image_path tid = .ok
      { storagePosted :=
          (dictOfPairs pairs).map (fun p => FormPart.field p.1 p.2)
            ++ [FormPart.filePart "file" (pathName image_path) "image/jpeg"],
        analysisPath := "/requests-for-analysis/" ++ pyToStr uid,
        analysisParams :=
          match tid with
          | some t => if t = "" then [] else [("target_id", t)]
          | none => [],
        returned := uid } := by
    unfold upload_and_analyze
    simp only [bind, Except.bind, hp, hfields, hiter, hpairs, hurl, huid, hana]
    rw [if_neg (by simp [hstor])]
  have hmem : ∃ p ∈ pairs, p.1 = k := by
    have : 0 < pairs.countP (fun p => decide (p.1 = k)) := by omega
    rcases List.countP_pos_iff.mp this with ⟨p, hp', hdec⟩
    exact ⟨p, hp', by simpa using hdec⟩
  rcases hmem with ⟨p, hpmem, hpk⟩
  rcases alookup_isSome_of_mem k pairs.reverse p
    (List.mem_reverse.mpr hpmem) hpk with ⟨v, hv⟩
  refine ⟨_, v, heq, hv, ?_⟩
  have hlast : alookup k (dictOfPairs pairs) = some v := by
    rw [alookup_dictOfPairs]
    exact hv
  have hfil := filter_eq_single_of_alookup (dictOfPairs pairs) k v
    (distinctKeys_dictOfPairs pairs) hlast
  simp only [List.filter_append, filter_hasKey_map, hfil]
  simp [FormPart.hasKey]

/-- Witness for C9: with `dupFieldsEnv`, whose two fields both use the
key `k`, the posted form carries the single part `k = v2` — the last
value — and no part for the first value. -/
theorem claim_C9_duplicate_keys_witness :
    ∃ tr v, upload_and_analyze dupFieldsEnv "a.jpg" none = .ok tr ∧
      alookup (Json.str "k")
          [(Json.str "k", Json.str "v1"),
           (Json.str "k", Json.str "v2")].reverse = some v ∧
      tr.storagePosted.filter (FormPart.hasKey (Json.str "k"))
        = [FormPart.field (Json.str "k") v] :=
  claim_C9_duplicate_keys dupFieldsEnv "a.jpg" none _ _
    (Json.str "https://s3/x") (Json.str "u1") _
    [(Json.str "k", Json.str "v1"), (Json.str "k", Json.str "v2")]
    (some (Json.obj [])) rfl rfl rfl rfl rfl (by decide) rfl rfl
    (Json.str "k") (by decide)

/-- A poll response whose error body decodes to a JSON array. -/
def pollEnvArray : Nat → HttpResponse :=
  fun _ => ⟨422, some (Json.arr [])⟩

/-- Claim C10, amended: an `HTTPError` raised by `_request` always
carries a `response_content` attribute — the decoded JSON body, or `{}`
when decoding fails — and the poll loop lookup of the `error` field on
it is defined whenever that content is a JSON object, in particular
whenever decoding failed; a non-object JSON error body, however, is
carried as decoded, and the lookup on it then raises `AttributeError`
(refuted claim part below). -/
theorem claim_C10_error_content (resp : HttpResponse)
    (herr : isErrorStatus resp.status = true) :
    IZClient.request resp
      = .error (.httpError (resp.body.getD (Json.obj []))) ∧
    (resp.body = none →
      ∃ r, pyGet (resp.body.getD (Json.obj [])) "error" = .ok r) ∧
    (∀ fields, resp.body = some (Json.obj fields) →
      ∃ r, pyGet (resp.body.getD (Json.obj [])) "error" = .ok r) := by
  refine ⟨by simp [IZClient.request, herr], ?_, ?_⟩
  · intro hb
    rw [hb]
    exact ⟨alookup "error" [], rfl⟩
  · intro fields hb
    rw [hb]
    exact ⟨alookup "error" fields, rfl⟩

/-- Witness for C10: a 404 whose body does not decode carries `{}` and
the `error` lookup on it is defined; a 409 with an object body carries
that object and the lookup is defined. -/
theorem claim_C10_error_content_witness :
    IZClient.request ⟨404, none⟩ = .error (.httpError (Json.obj [])) ∧
    (∃ r, pyGet ((none : Option Json).getD (Json.obj [])) "error" = .ok r) ∧
    (∃ r, pyGet ((some (Json.obj [("error", Json.str "x")])).getD
      (Json.obj [])) "error" = .ok r) :=
  ⟨(claim_C10_error_content ⟨404, none⟩ rfl).1,
   (claim_C10_error_content ⟨404, none⟩ rfl).2.1 rfl,
   (claim_C10_error_content ⟨409, some (Json.obj [("error", Json.str "x")])⟩
     rfl).2.2 [("error", Json.str "x")] rfl⟩

/-- Counterexample to C10 as stated: an error body decoding to a JSON
array is attached as that array — not a key-value structure — and the
poll loop lookup of the `error` field on it raises `AttributeError`:
the lookup is not defined on every path. -/
theorem claim_C10_counterexample :
    IZClient.request (pollEnvArray 0)
      = .error (.httpError (Json.arr [])) ∧
    pyGet (Json.arr []) "error" = .error .attributeError ∧
    pollLoop pollEnvArray 1 0 0 = some (.raised .attributeError 0) := by
  refine ⟨rfl, rfl, by decide⟩

end ImageZebra
